import Mathlib

/-!
Shallow embedding of the quiz-server coordination core
(src/main.py and src/models.py).

Model choices:
* Python `int` is `Int` (the quiz cursor starts at `-1` and is unbounded).
* Python list indexing `xs[i]` (including negative indexing, with
  `IndexError` as `none`) is `pyIndex`.
* A Python `dict` is an insertion-ordered association list; assignment
  `d[k] = v` (`dictSet`) overwrites the first binding of `k` in place or
  appends a fresh binding at the end.
* Python exceptions are explicit: fallible operations return
  `Except PyErr _`; a `try/except` block is a `match` on that result.
* A WebSocket handle is reduced to the participant id `pid` (object
  identity of the socket) plus a `reachable` flag: `send_json`/`close`
  succeed exactly when the socket is reachable and raise `RuntimeError`
  otherwise, which is what `Player.send`/`Player.close_connection` catch.
* Outbound I/O is a trace of `Evt` values.
-/

/-- Python exceptions that the modelled code can raise. -/
inductive PyErr
  | keyError
  | valueError
  | runtimeError
  deriving DecidableEq, Repr

/-- Python list indexing `xs[i]`: negative indices count from the end,
out-of-range indexing raises `IndexError` (modelled as `none`). -/
def pyIndex {α : Type} (xs : List α) (i : Int) : Option α :=
  if i < 0 then
    if 0 ≤ (xs.length : Int) + i then xs.get? ((xs.length : Int) + i).toNat else none
  else
    xs.get? i.toNat

/-- Python dict assignment `d[k] = v` on an insertion-ordered association
list: overwrite the first binding of `k` keeping its position, or append
a fresh binding at the end. -/
def dictSet {K V : Type} [DecidableEq K] (d : List (K × V)) (k : K) (v : V) :
    List (K × V) :=
  match d with
  | [] => [(k, v)]
  | kv :: rest => if kv.1 = k then (k, v) :: rest else kv :: dictSet rest k v

/-- Python dict lookup `d.get(k)` on the association-list model. -/
def dictLookup {K V : Type} [DecidableEq K] (d : List (K × V)) (k : K) :
    Option V :=
  match d with
  | [] => none
  | kv :: rest => if kv.1 = k then some kv.2 else dictLookup rest k

/-- Source `Option` dataclass (an answer option of a question); renamed to
`QOption` because `Option` is taken in Lean. -/
structure QOption where
  answer : String
  correct : Bool
  deriving DecidableEq, Repr

/-- Source `Question` dataclass. -/
structure Question where
  text : String
  time_limit : Option Int := none
  options : List QOption := []
  deriving DecidableEq, Repr

/-- Source `Quiz` dataclass: name, questions, and the cursor
`current_question`, initialised to `-1` (before the first question). -/
structure Quiz where
  name : String
  questions : List Question
  current_question : Int := -1
  deriving DecidableEq, Repr

/-- Source `Quiz.__next__`: increments the cursor, then indexes
`questions[current_question]`; `IndexError` becomes `StopIteration`,
modelled as `none` in the second component.  The incremented cursor is
kept in both outcomes, exactly as in the source. -/
def Quiz.next (q : Quiz) : Quiz × Option Question :=
  ({ q with current_question := q.current_question + 1 },
   pyIndex q.questions (q.current_question + 1))

/-- Source `Quiz.__len__`. -/
def Quiz.len (q : Quiz) : Nat :=
  q.questions.length

/-- Source `Quiz.question` property: `self.questions[self.current_question]`,
with Python indexing semantics (`IndexError` as `none`). -/
def Quiz.question (q : Quiz) : Option Question :=
  pyIndex q.questions q.current_question

/-- Payloads the server sends, as produced by the source.  `questionMsg`
is `Question.ask`; `repeatEcho` is the answer echo; `info` is the plain
`{"text": ...}` payload sent on connect. -/
inductive Msg
  | info (text : String)
  | questionMsg (text : String) (options : List String)
  | repeatEcho (text : String)
  deriving DecidableEq, Repr

/-- Source `Question.ask`: the broadcast payload
`{"type": "question", "text": ..., "options": [...]}`. -/
def Question.ask (q : Question) : Msg :=
  Msg.questionMsg q.text (q.options.map QOption.answer)

/-- Source `Player` dataclass: the socket is reduced to its identity
`pid` and a `reachable` flag; `accepting_answer` is the answer gate,
initially closed. -/
structure Player where
  pid : Nat
  name : String
  accepting_answer : Bool := false
  reachable : Bool := true
  deriving DecidableEq, Repr

/-- One entry of the result ledger: `{"answer": ..., "correct": True}`. -/
structure LedgerEntry where
  answer : String
  correct : Bool
  deriving DecidableEq, Repr

/-- The `Results._results` dict, keyed by `(player.name, question_number)`. -/
abbrev Ledger := List ((String × Int) × LedgerEntry)

/-- Observable I/O events emitted by one coordinator step. -/
inductive Evt
  | sent (pid : Nat) (m : Msg)
  | sendFailed (pid : Nat)
  | recorded (name : String) (qnum : Int) (answer : String)
  | closedConn (pid : Nat) (reason : String)
  | closeFailed (pid : Nat)
  | resultsPrinted (r : Ledger)
  | disconnectLogged (pid : Nat)
  | crashed (pid : Nat)
  deriving DecidableEq, Repr

/-- The raw `websocket.send_json`: succeeds iff the socket is reachable,
otherwise raises `RuntimeError`. -/
def wsSendJson (p : Player) (m : Msg) : Except PyErr Evt :=
  if p.reachable then Except.ok (Evt.sent p.pid m) else Except.error PyErr.runtimeError

/-- The raw `websocket.close`: succeeds iff the socket is reachable,
otherwise raises `RuntimeError`. -/
def wsClose (p : Player) (reason : String) : Except PyErr Evt :=
  if p.reachable then Except.ok (Evt.closedConn p.pid reason)
  else Except.error PyErr.runtimeError

/-- Source `Player.send`: `try: send_json(...) except RuntimeError: log`.
Only `RuntimeError` is caught; anything else would propagate. -/
def Player.send (p : Player) (m : Msg) : Except PyErr (List Evt) :=
  match wsSendJson p m with
  | Except.ok e => Except.ok [e]
  | Except.error PyErr.runtimeError => Except.ok [Evt.sendFailed p.pid]
  | Except.error e => Except.error e

/-- Source `Player.close_connection`: `try: close(...) except RuntimeError: log`. -/
def Player.close_connection (p : Player) (reason : String) : Except PyErr (List Evt) :=
  match wsClose p reason with
  | Except.ok e => Except.ok [e]
  | Except.error PyErr.runtimeError => Except.ok [Evt.closeFailed p.pid]
  | Except.error e => Except.error e

/-- The `Players._players` registry list. -/
abbrev Players := List Player

/-- Source `Players.add`. -/
def Players.add (ps : Players) (p : Player) : Players :=
  ps ++ [p]

/-- Source `Players.remove`: Python `list.remove` removes the first equal
element and raises `ValueError` when no element is equal. -/
def Players.remove (ps : Players) (p : Player) : Except PyErr Players :=
  match ps with
  | [] => Except.error PyErr.valueError
  | q :: rest =>
    if q = p then Except.ok rest
    else
      match Players.remove rest p with
      | Except.ok rest' => Except.ok (q :: rest')
      | Except.error e => Except.error e

/-- Source `Players.unblock_players`: open every registered player's gate. -/
def Players.unblock_players (ps : Players) : Players :=
  ps.map fun p => { p with accepting_answer := true }

/-- Source `Players.send`: a `for` loop awaiting `player.send` on each
registered player in order; an exception from the body would abort the
loop and propagate. -/
def Players.send (ps : Players) (m : Msg) : Except PyErr (List Evt) :=
  match ps with
  | [] => Except.ok []
  | p :: rest =>
    match Player.send p m with
    | Except.error e => Except.error e
    | Except.ok evts =>
      match Players.send rest m with
      | Except.error e => Except.error e
      | Except.ok evts' => Except.ok (evts ++ evts')

/-- Source `Players.close_connection`: a `for` loop awaiting
`player.close_connection` on each registered player in order. -/
def Players.close_connection (ps : Players) (reason : String) :
    Except PyErr (List Evt) :=
  match ps with
  | [] => Except.ok []
  | p :: rest =>
    match Player.close_connection p reason with
    | Except.error e => Except.error e
    | Except.ok evts =>
      match Players.close_connection rest reason with
      | Except.error e => Except.error e
      | Except.ok evts' => Except.ok (evts ++ evts')

/-- Source `Results.check_answer`:
`self._results[(player.name, question_number)] = {"answer": answer, "correct": True}`. -/
def Results.check_answer (r : Ledger) (name : String) (question_number : Int)
    (answer : String) : Ledger :=
  dictSet r (name, question_number) { answer := answer, correct := true }

/-- Source `Results.as_list` flattening order: the ledger keys in
insertion order. -/
def Results.keys (r : Ledger) : List (String × Int) :=
  r.map Prod.fst

/-- Whether the coordinator process is still serving, or has called
`shutdown_server` after the quiz was exhausted (terminal). -/
inductive Status
  | active
  | ended
  deriving DecidableEq, Repr

/-- The session coordinator's shared state: `app.state.quiz`,
`app.state.players`, `app.state.results`, plus the process status. -/
structure Sys where
  quiz : Quiz
  players : Players
  results : Ledger
  status : Status
  deriving DecidableEq, Repr

/-- Inbound JSON object from a participant, reduced to the only field the
handler reads: `data["answer"]` is `none` when the key is absent (a
lookup that raises `KeyError`). -/
structure InData where
  answer : Option String
  deriving DecidableEq, Repr

/-- Inbound events the coordinator serves: a participant connecting
(with the socket identity, path name, and transport liveness), a
participant JSON message, a participant disconnect, and the host's
case-insensitive `y` advance command. -/
inductive Cmd
  | connect (pid : Nat) (name : String) (reachable : Bool)
  | message (pid : Nat) (data : InData)
  | disconnect (pid : Nat)
  | advance
  deriving DecidableEq, Repr

/-- First registered player whose socket identity is `pid`: the `player`
local variable of that connection's handler task. -/
def findPlayer (ps : Players) (pid : Nat) : Option Player :=
  ps.find? fun p => p.pid == pid

/-- Mutation of the handler task's `player` object: update the first
registry entry whose socket identity is `pid`. -/
def updateFirst (ps : Players) (pid : Nat) (f : Player → Player) : Players :=
  match ps with
  | [] => []
  | p :: rest => if p.pid = pid then f p :: rest else p :: updateFirst rest pid f

/-- One iteration of the `connect` websocket handler's receive loop on an
inbound JSON object `data` (src/main.py lines 197-210): if the player's
gate is open, evaluate `data["answer"]` (raising `KeyError` when the key
is absent), echo `{"type": "repeat", "text": answer}` to the player,
close the player's gate, and record the answer in the ledger under
`(player.name, quiz.current_question)`; if the gate is closed, do
nothing.  An uncaught exception escapes this handler (the value
`Except.error _`), terminating that participant's connection task. -/
def handleMessage (s : Sys) (pid : Nat) (data : InData) :
    Except PyErr (Sys × List Evt) :=
  match findPlayer s.players pid with
  | none => Except.ok (s, [])
  | some p =>
    if p.accepting_answer then
      match data.answer with
      | none => Except.error PyErr.keyError
      | some ans =>
        match Player.send p (Msg.repeatEcho ans) with
        | Except.error e => Except.error e
        | Except.ok echoEvts =>
          Except.ok
            ({ s with
                players := updateFirst s.players pid
                  fun q => { q with accepting_answer := false },
                results := Results.check_answer s.results p.name
                  s.quiz.current_question ans },
             echoEvts ++ [Evt.recorded p.name s.quiz.current_question ans])
    else
      Except.ok (s, [])

/-- One coordinator step, serving one inbound event.  After
`shutdown_server` (`Status.ended`) the process is gone and nothing more
happens.  `connect` accepts the socket, sends the two informational
payloads, and registers the player with a closed gate.  `message` runs
`handleMessage`; an uncaught exception terminates only that connection
task (event `crashed`), leaving the shared state unchanged.  `disconnect`
only logs: the `players.remove` call in the source is commented out, so
the registry keeps the entry.  `advance` is the host's `y`: pull
`next(quiz)`; on `StopIteration` print the results, close every
connection and shut down; otherwise open all gates and broadcast the
question. -/
def step (s : Sys) (c : Cmd) : Sys × List Evt :=
  match s.status with
  | Status.ended => (s, [])
  | Status.active =>
    match c with
    | Cmd.connect pid name reachable =>
      let p : Player :=
        { pid := pid, name := name, accepting_answer := false, reachable := reachable }
      ({ s with players := Players.add s.players p },
       [Evt.sent pid (Msg.info s.quiz.name),
        Evt.sent pid (Msg.info "Check your name on the screen!")])
    | Cmd.message pid data =>
      match handleMessage s pid data with
      | Except.ok res => res
      | Except.error _ => (s, [Evt.crashed pid])
    | Cmd.disconnect pid =>
      (s, [Evt.disconnectLogged pid])
    | Cmd.advance =>
      match Quiz.next s.quiz with
      | (q', none) =>
        let closeEvts :=
          match Players.close_connection s.players "Quiz ended" with
          | Except.ok evts => evts
          | Except.error _ => []
        ({ s with quiz := q', status := Status.ended },
         Evt.resultsPrinted s.results :: closeEvts)
      | (q', some question) =>
        let players' := Players.unblock_players s.players
        let sendEvts :=
          match Players.send players' (Question.ask question) with
          | Except.ok evts => evts
          | Except.error _ => []
        ({ s with quiz := q', players := players' }, sendEvts)

/-- The coordinator state right after the lifespan hook loaded the quiz:
cursor at `-1`, empty registry, empty ledger, process serving. -/
def initSys (name : String) (qs : List Question) : Sys :=
  { quiz := { name := name, questions := qs, current_question := -1 },
    players := [],
    results := [],
    status := Status.active }

/-- States the session can actually be in: the loaded initial state and
anything reachable from it by coordinator steps. -/
inductive Reachable : Sys → Prop
  | init (name : String) (qs : List Question) : Reachable (initSys name qs)
  | step (s : Sys) (c : Cmd) : Reachable s → Reachable (step s c).1

/-- A two-question demo quiz used to instantiate theorems with concrete
inputs. -/
def demoQuestions : List Question :=
  [{ text := "Q1",
     time_limit := none,
     options := [{ answer := "A", correct := true }, { answer := "B", correct := false }] },
   { text := "Q2",
     time_limit := some 30,
     options := [{ answer := "C", correct := true }] }]

/-- The demo quiz session at load time. -/
def demoInit : Sys :=
  initSys "demo" demoQuestions

/-- Demo session after: alice connects, the host advances once, and alice
answers `A`. -/
def demoAfterAnswer : Sys :=
  (step (step (step demoInit (Cmd.connect 0 "alice" true)).1 Cmd.advance).1
    (Cmd.message 0 { answer := some "A" })).1

/-- Demo session with question 1 open and alice's gate open (alice
connected, host advanced once, no answer yet). -/
def demoQOpen : Sys :=
  (step (step demoInit (Cmd.connect 0 "alice" true)).1 Cmd.advance).1

/-- The demo quiz freshly loaded, cursor never advanced (still `-1`). -/
def demoFresh : Quiz :=
  { name := "demo", questions := demoQuestions }

/-- Concrete registered player used in witnesses. -/
def demoAlice : Player :=
  { pid := 0, name := "alice" }

/-- Concrete player absent from the demo registries, used in witnesses. -/
def demoBob : Player :=
  { pid := 5, name := "bob" }

/-- The registry entry for alice while her gate is open (her state inside
`demoQOpen`). -/
def demoAliceOpen : Player :=
  { pid := 0, name := "alice", accepting_answer := true }

/-- A registered player whose socket has become unreachable, used in
witnesses for the failure-isolation theorems. -/
def demoGhost : Player :=
  { pid := 7, name := "ghost", reachable := false }

/-- The observable outcome of one attempted `send_json` to one player:
delivery when the socket is reachable, a caught-and-logged
`RuntimeError` otherwise.  Used to characterise broadcast behaviour. -/
def sendAttempt (p : Player) (m : Msg) : List Evt :=
  if p.reachable then [Evt.sent p.pid m] else [Evt.sendFailed p.pid]

/-- The observable outcome of one attempted `close` of one player's
socket: closure when reachable, a caught-and-logged `RuntimeError`
otherwise. -/
def closeAttempt (p : Player) (reason : String) : List Evt :=
  if p.reachable then [Evt.closedConn p.pid reason] else [Evt.closeFailed p.pid]

/-- Inductive invariant of the coordinator: the cursor stays in
`[-1, len]`, is strictly below `len` while the process still serves, and
the ledger keys are pairwise distinct. -/
def SysInv (s : Sys) : Prop :=
  -1 ≤ s.quiz.current_question ∧
  s.quiz.current_question ≤ (s.quiz.questions.length : Int) ∧
  (s.status = Status.active → s.quiz.current_question < (s.quiz.questions.length : Int)) ∧
  (Results.keys s.results).Nodup


/-! ### Basic lemmas about the Python-semantics helpers -/

/-- For a non-negative index, Python indexing is plain list indexing. -/
theorem pyIndex_nonneg {α : Type} (xs : List α) (i : Int) (hi : 0 ≤ i) :
    pyIndex xs i = xs.get? i.toNat := by
  unfold pyIndex
  rw [if_neg (by omega)]

/-- A successful non-negative Python indexing means the index is in range. -/
theorem pyIndex_some_lt {α : Type} (xs : List α) (i : Int) (a : α) (hi : 0 ≤ i)
    (h : pyIndex xs i = some a) : i < (xs.length : Int) := by
  rw [pyIndex_nonneg xs i hi] at h
  by_contra hlt
  rw [List.get?_eq_none.2 (by omega)] at h
  exact Option.noConfusion h

/-- An in-range non-negative Python indexing succeeds. -/
theorem pyIndex_lt_some {α : Type} (xs : List α) (i : Int) (hi : 0 ≤ i)
    (hlt : i < (xs.length : Int)) : ∃ a, pyIndex xs i = some a := by
  rw [pyIndex_nonneg xs i hi]
  have hn : i.toNat < xs.length := by omega
  exact ⟨xs.get ⟨i.toNat, hn⟩, List.get?_eq_get hn⟩

/-- An out-of-range non-negative Python indexing raises `IndexError`. -/
theorem pyIndex_ge_none {α : Type} (xs : List α) (i : Int) (hi : 0 ≤ i)
    (hge : (xs.length : Int) ≤ i) : pyIndex xs i = none := by
  rw [pyIndex_nonneg xs i hi]
  exact List.get?_eq_none.2 (by omega)

/-- Every key of `dictSet d k v` is a key of `d` or is `k`. -/
theorem mem_keys_dictSet {K V : Type} [DecidableEq K] (d : List (K × V)) (k k' : K)
    (v : V) (h : k' ∈ (dictSet d k v).map Prod.fst) :
    k' ∈ d.map Prod.fst ∨ k' = k := by
  induction d with
  | nil =>
    simp only [dictSet, List.map_cons, List.map_nil, List.mem_singleton] at h
    exact Or.inr h
  | cons kv rest ih =>
    by_cases hk : kv.1 = k
    · simp only [dictSet, if_pos hk, List.map_cons, List.mem_cons] at h
      rcases h with h | h
      · exact Or.inr h
      · exact Or.inl (by simp [h])
    · simp only [dictSet, if_neg hk, List.map_cons, List.mem_cons] at h
      rcases h with h | h
      · exact Or.inl (by simp [h])
      · rcases ih h with h' | h'
        · exact Or.inl (by simp [h'])
        · exact Or.inr h'

/-- Python dict assignment keeps the keys pairwise distinct. -/
theorem nodup_keys_dictSet {K V : Type} [DecidableEq K] (d : List (K × V)) (k : K)
    (v : V) (h : (d.map Prod.fst).Nodup) : ((dictSet d k v).map Prod.fst).Nodup := by
  induction d with
  | nil => simp [dictSet]
  | cons kv rest ih =>
    rw [List.map_cons, List.nodup_cons] at h
    by_cases hk : kv.1 = k
    · simp only [dictSet, if_pos hk, List.map_cons, List.nodup_cons]
      exact ⟨by rw [← hk]; exact h.1, h.2⟩
    · simp only [dictSet, if_neg hk, List.map_cons, List.nodup_cons]
      refine ⟨fun hmem => ?_, ih h.2⟩
      rcases mem_keys_dictSet rest k kv.1 v hmem with h' | h'
      · exact h.1 h'
      · exact hk h'

/-- Python dict assignment makes the assigned key read back the new value. -/
theorem dictLookup_dictSet_self {K V : Type} [DecidableEq K] (d : List (K × V))
    (k : K) (v : V) : dictLookup (dictSet d k v) k = some v := by
  induction d with
  | nil => simp [dictSet, dictLookup]
  | cons kv rest ih =>
    by_cases hk : kv.1 = k
    · simp [dictSet, if_pos hk, dictLookup]
    · simp [dictSet, if_neg hk, dictLookup, hk, ih]

/-- Python dict assignment leaves every other key's value unchanged. -/
theorem dictLookup_dictSet_ne {K V : Type} [DecidableEq K] (d : List (K × V))
    (k k' : K) (v : V) (h : k' ≠ k) :
    dictLookup (dictSet d k v) k' = dictLookup d k' := by
  induction d with
  | nil => simp [dictSet, dictLookup, Ne.symm h]
  | cons kv rest ih =>
    by_cases hk : kv.1 = k
    · simp [dictSet, hk, dictLookup, Ne.symm h]
    · by_cases hk' : kv.1 = k'
      · simp [dictSet, hk, dictLookup, hk', h]
      · simp [dictSet, hk, dictLookup, hk', ih]

/-- Assigning a fresh key appends: the dict grows by exactly one entry. -/
theorem length_dictSet_fresh {K V : Type} [DecidableEq K] (d : List (K × V))
    (k : K) (v : V) (h : k ∉ d.map Prod.fst) :
    (dictSet d k v).length = d.length + 1 := by
  induction d with
  | nil => simp [dictSet]
  | cons kv rest ih =>
    simp only [List.map_cons, List.mem_cons] at h
    push_neg at h
    have hk : kv.1 ≠ k := fun he => h.1 he.symm
    simp [dictSet, if_neg hk, ih h.2]

/-! ### Send / close isolation lemmas -/

/-- `Player.send` never raises: `RuntimeError` from the socket is caught
and turned into a log event. -/
theorem Player.send_never_raises (p : Player) (m : Msg) :
    Player.send p m = Except.ok (sendAttempt p m) := by
  cases hr : p.reachable <;>
    simp [Player.send, wsSendJson, sendAttempt, hr]

/-- `Player.close_connection` never raises. -/
theorem Player.close_never_raises (p : Player) (reason : String) :
    Player.close_connection p reason = Except.ok (closeAttempt p reason) := by
  cases hr : p.reachable <;>
    simp [Player.close_connection, wsClose, closeAttempt, hr]

/-- The broadcast loop never raises and produces exactly one delivery
attempt per registered player, in registry order. -/
theorem Players.send_attempts_all (ps : Players) (m : Msg) :
    Players.send ps m = Except.ok (ps.flatMap fun p => sendAttempt p m) := by
  induction ps with
  | nil => rfl
  | cons p rest ih => simp [Players.send, Player.send_never_raises, ih]

/-- The close-all loop never raises and produces exactly one close
attempt per registered player, in registry order. -/
theorem Players.close_attempts_all (ps : Players) (reason : String) :
    Players.close_connection ps reason =
      Except.ok (ps.flatMap fun p => closeAttempt p reason) := by
  induction ps with
  | nil => rfl
  | cons p rest ih => simp [Players.close_connection, Player.close_never_raises, ih]

/-! ### Registry lookup / update lemmas -/

/-- A successful `findPlayer` splits the registry around the first entry
with the sought socket identity. -/
theorem findPlayer_eq_some_split (ps : Players) (pid : Nat) (p : Player)
    (h : findPlayer ps pid = some p) :
    p.pid = pid ∧ ∃ l1 l2, ps = l1 ++ p :: l2 ∧ ∀ q ∈ l1, q.pid ≠ pid := by
  unfold findPlayer at h
  rw [List.find?_eq_some] at h
  obtain ⟨hp, l1, l2, heq, hall⟩ := h
  refine ⟨by simpa using hp, l1, l2, heq, fun q hq => ?_⟩
  have := hall q hq
  simpa using this

/-- `updateFirst` on a registry split at the first matching entry updates
just that entry. -/
theorem updateFirst_split (l1 : Players) (p : Player) (l2 : Players) (pid : Nat)
    (f : Player → Player) (hl1 : ∀ q ∈ l1, q.pid ≠ pid) (hp : p.pid = pid) :
    updateFirst (l1 ++ p :: l2) pid f = l1 ++ f p :: l2 := by
  induction l1 with
  | nil => simp [updateFirst, hp]
  | cons q rest ih =>
    have hq : q.pid ≠ pid := hl1 q (by simp)
    have ih' := ih fun r hr => hl1 r (by simp [hr])
    simp [updateFirst, hq, ih']

/-! ### `handleMessage` characterisation -/

/-- Every outcome of one receive-loop iteration: an uncaught exception,
a no-op (unknown socket or closed gate), or an accepted answer that
closes the player's gate and records the answer; the quiz and the
status are untouched in every case. -/
theorem handleMessage_cases (s : Sys) (pid : Nat) (data : InData) :
    (∃ e, handleMessage s pid data = Except.error e) ∨
    handleMessage s pid data = Except.ok (s, []) ∨
    (∃ p ans evts,
      findPlayer s.players pid = some p ∧ data.answer = some ans ∧
      handleMessage s pid data =
        Except.ok
          ({ s with
              players := updateFirst s.players pid
                fun q => { q with accepting_answer := false },
              results := Results.check_answer s.results p.name
                s.quiz.current_question ans },
           evts)) := by
  unfold handleMessage
  cases hf : findPlayer s.players pid with
  | none => exact Or.inr (Or.inl rfl)
  | some p =>
    cases hg : p.accepting_answer with
    | false => exact Or.inr (Or.inl (by simp [hg]))
    | true =>
      cases ha : data.answer with
      | none => exact Or.inl ⟨PyErr.keyError, by simp [hg, ha]⟩
      | some ans =>
        refine Or.inr (Or.inr
          ⟨p, ans,
            sendAttempt p (Msg.repeatEcho ans) ++
              [Evt.recorded p.name s.quiz.current_question ans],
            rfl, rfl, ?_⟩)
        simp [hg, ha, Player.send_never_raises]

/-! ### The inductive invariant -/

/-- The freshly loaded session satisfies the invariant. -/
theorem sysInv_init (name : String) (qs : List Question) :
    SysInv (initSys name qs) := by
  refine ⟨by simp [initSys], by simp [initSys]; omega, fun _ => ?_, by simp [initSys, Results.keys]⟩
  simp [initSys]
  omega

/-- Every coordinator step preserves the invariant. -/
theorem sysInv_step (s : Sys) (c : Cmd) (h : SysInv s) : SysInv (step s c).1 := by
  obtain ⟨h1, h2, h3, h4⟩ := h
  cases hst : s.status with
  | ended => simpa [step, hst] using ⟨h1, h2, h3, h4⟩
  | active =>
    cases c with
    | connect pid name reachable =>
      exact ⟨by simpa [step, hst] using h1, by simpa [step, hst] using h2,
        by simpa [step, hst] using h3 hst, by simpa [step, hst] using h4⟩
    | message pid data =>
      rcases handleMessage_cases s pid data with ⟨e, he⟩ | he | ⟨p, ans, evts, hf, ha, he⟩
      · simpa [step, hst, he] using ⟨h1, h2, h3, h4⟩
      · simpa [step, hst, he] using ⟨h1, h2, h3, h4⟩
      · refine ⟨by simpa [step, hst, he] using h1, by simpa [step, hst, he] using h2,
          by simpa [step, hst, he] using h3 hst, ?_⟩
        have : ((step s (Cmd.message pid data)).1.results).map Prod.fst =
            (Results.check_answer s.results p.name s.quiz.current_question ans).map
              Prod.fst := by
          simp [step, hst, he]
        rw [Results.keys, this]
        exact nodup_keys_dictSet s.results _ _ h4
    | disconnect pid =>
      simpa [step, hst] using ⟨h1, h2, h3, h4⟩
    | advance =>
      cases hq : pyIndex s.quiz.questions (s.quiz.current_question + 1) with
      | none =>
        have hlt : s.quiz.current_question < (s.quiz.questions.length : Int) := h3 hst
        refine ⟨?_, ?_, ?_, ?_⟩ <;> simp [step, hst, Quiz.next, hq, Results.keys] at *
        · omega
        · omega
        · exact h4
      | some question =>
        have hlt : s.quiz.current_question + 1 < (s.quiz.questions.length : Int) :=
          pyIndex_some_lt s.quiz.questions _ question (by omega) hq
        refine ⟨?_, ?_, ?_, ?_⟩ <;> simp [step, hst, Quiz.next, hq, Results.keys] at *
        · omega
        · omega
        · omega
        · exact h4

/-- Every reachable coordinator state satisfies the invariant. -/
theorem reachable_sysInv (s : Sys) (h : Reachable s) : SysInv s := by
  induction h with
  | init name qs => exact sysInv_init name qs
  | step s c _ ih => exact sysInv_step s c ih

/-- The terminal state is absorbing: after `shutdown_server` nothing
further happens. -/
theorem step_ended (s : Sys) (c : Cmd) (h : s.status = Status.ended) :
    step s c = (s, []) := by
  simp [step, h]

/-- One step moves the cursor forward by zero or one. -/
theorem step_cursor (s : Sys) (c : Cmd) :
    (step s c).1.quiz.current_question = s.quiz.current_question ∨
    (step s c).1.quiz.current_question = s.quiz.current_question + 1 := by
  cases hst : s.status with
  | ended => simp [step, hst]
  | active =>
    cases c with
    | connect pid name reachable => simp [step, hst]
    | message pid data =>
      rcases handleMessage_cases s pid data with ⟨e, he⟩ | he | ⟨p, ans, evts, hf, ha, he⟩ <;>
        simp [step, hst, he]
    | disconnect pid => simp [step, hst]
    | advance =>
      cases hq : pyIndex s.quiz.questions (s.quiz.current_question + 1) with
      | none => simp [step, hst, Quiz.next, hq]
      | some question => simp [step, hst, Quiz.next, hq]

/-! ### Claim theorems -/

/-- C3: from cursor position `i`, `advance` (`Quiz.__next__`) moves the
cursor to `i + 1`, and returns the question at index `i + 1` — the next
question in order — exactly when `i + 1 < length`; called with the
cursor at or past the last question it signals the `Exhausted`
condition (`StopIteration`, modelled as `none`) instead of returning a
question. -/
theorem advance_returns_next_in_order (q : Quiz) (h : -1 ≤ q.current_question) :
    (Quiz.next q).1.current_question = q.current_question + 1 ∧
    (∀ qu : Question, (Quiz.next q).2 = some qu →
      q.current_question + 1 < (q.questions.length : Int) ∧
      q.questions.get? (q.current_question + 1).toNat = some qu) ∧
    (q.current_question + 1 < (q.questions.length : Int) →
      ∃ qu : Question, (Quiz.next q).2 = some qu) ∧
    ((q.questions.length : Int) ≤ q.current_question + 1 →
      (Quiz.next q).2 = none) := by
  have hnn : (0 : Int) ≤ q.current_question + 1 := by omega
  refine ⟨rfl, ?_, ?_, ?_⟩
  · intro qu hqu
    refine ⟨pyIndex_some_lt _ _ _ hnn hqu, ?_⟩
    have : pyIndex q.questions (q.current_question + 1) = some qu := hqu
    rwa [pyIndex_nonneg _ _ hnn] at this
  · intro hlt
    exact pyIndex_lt_some _ _ hnn hlt
  · intro hge
    exact pyIndex_ge_none _ _ hnn hge

/-- Witness for the `advance` contract at the freshly loaded demo quiz. -/
theorem advance_returns_next_in_order_witness :
    -1 ≤ demoFresh.current_question ∧
    (Quiz.next demoFresh).1.current_question = demoFresh.current_question + 1 ∧
    (∃ qu : Question, (Quiz.next demoFresh).2 = some qu) :=
  ⟨by decide,
   (advance_returns_next_in_order demoFresh (by decide)).1,
   (advance_returns_next_in_order demoFresh (by decide)).2.2.1 (by decide)⟩

/-- C10: on a freshly loaded non-empty quiz whose cursor was never
advanced (still `-1`), the `question` accessor does not raise: Python
negative indexing makes `questions[-1]` the last question of the quiz. -/
theorem fresh_quiz_question_reads_last (q : Quiz) (h : q.current_question = -1)
    (hne : q.questions ≠ []) :
    Quiz.question q = some (q.questions.getLast hne) := by
  have hpos : 0 < q.questions.length := List.length_pos.2 hne
  unfold Quiz.question pyIndex
  rw [h, if_pos (by omega), if_pos (by omega)]
  have hidx : ((q.questions.length : Int) + (-1)).toNat = q.questions.length - 1 := by
    omega
  rw [hidx, List.getLast_eq_get]
  exact List.get?_eq_get (by omega)

/-- Witness: the fresh demo quiz's `question` accessor yields its second
(last) question. -/
theorem fresh_quiz_question_reads_last_witness :
    Quiz.question demoFresh =
      some { text := "Q2", time_limit := some 30,
             options := [{ answer := "C", correct := true }] } := by
  rw [fresh_quiz_question_reads_last demoFresh rfl (by decide)]
  decide

/-- C8: the broadcast loop delivers independently per registered player:
it never raises to its caller (always `ok`), produces exactly one
delivery attempt per player in registry order — a `RuntimeError` on one
socket is caught and logged, never skipping the rest — and every
reachable player receives the payload whatever happens to the others;
the same per-player isolation holds for the close-all loop. -/
theorem broadcast_failure_isolation (ps : Players) (m : Msg) (reason : String) :
    Players.send ps m = Except.ok (ps.flatMap fun p => sendAttempt p m) ∧
    (∀ p ∈ ps, p.reachable = true →
      Evt.sent p.pid m ∈ ps.flatMap fun p => sendAttempt p m) ∧
    Players.close_connection ps reason =
      Except.ok (ps.flatMap fun p => closeAttempt p reason) ∧
    (∀ p ∈ ps, p.reachable = true →
      Evt.closedConn p.pid reason ∈ ps.flatMap fun p => closeAttempt p reason) := by
  refine ⟨Players.send_attempts_all ps m, ?_, Players.close_attempts_all ps reason, ?_⟩
  · intro p hp hr
    exact List.mem_flatMap.2 ⟨p, hp, by simp [sendAttempt, hr]⟩
  · intro p hp hr
    exact List.mem_flatMap.2 ⟨p, hp, by simp [closeAttempt, hr]⟩

/-- Witness: broadcasting to a registry whose first player is
unreachable still reaches the second player, and the dead socket's
failure is logged, not raised. -/
theorem broadcast_failure_isolation_witness :
    Players.send [demoGhost, demoAlice] (Msg.info "hi") =
      Except.ok [Evt.sendFailed 7, Evt.sent 0 (Msg.info "hi")] ∧
    Evt.sent demoAlice.pid (Msg.info "hi") ∈
      ([demoGhost, demoAlice] : Players).flatMap
        fun p => sendAttempt p (Msg.info "hi") := by
  constructor
  · have h2 : ([demoGhost, demoAlice] : Players).flatMap
        (fun p => sendAttempt p (Msg.info "hi")) =
        [Evt.sendFailed 7, Evt.sent 0 (Msg.info "hi")] := by decide
    rw [(broadcast_failure_isolation [demoGhost, demoAlice] (Msg.info "hi") "bye").1, h2]
  · exact (broadcast_failure_isolation [demoGhost, demoAlice] (Msg.info "hi") "bye").2.1
      demoAlice (by decide) (by decide)

/-- C9 counterexample: unregistering an absent participant is not a
no-op — Python `list.remove` raises `ValueError` when the element is
missing, so `Players.remove` errors instead of returning the registry
unchanged. -/
theorem unregister_absent_counterexample :
    Players.remove [demoAlice] demoBob = Except.error PyErr.valueError ∧
    Players.remove [demoAlice] demoBob ≠ Except.ok [demoAlice] := by
  have h1 : Players.remove [demoAlice] demoBob = Except.error PyErr.valueError := rfl
  refine ⟨h1, ?_⟩
  rw [h1]
  exact fun h => Except.noConfusion h

/-- C9 amended: unregistering removes the first matching registry entry
when the participant is present, but raises `ValueError` (rather than
being a no-op) when the participant is absent. -/
theorem unregister_absent_raises (ps : Players) (p : Player) :
    (p ∈ ps → ∃ l1 l2, ps = l1 ++ p :: l2 ∧ p ∉ l1 ∧
      Players.remove ps p = Except.ok (l1 ++ l2)) ∧
    (p ∉ ps → Players.remove ps p = Except.error PyErr.valueError) := by
  induction ps with
  | nil =>
    exact ⟨fun h => absurd h (List.not_mem_nil p), fun _ => rfl⟩
  | cons q rest ih =>
    constructor
    · intro hmem
      by_cases hq : q = p
      · subst hq
        exact ⟨[], rest, rfl, by simp, by simp [Players.remove]⟩
      · have hmem' : p ∈ rest := by
          rcases List.mem_cons.1 hmem with h | h
          · exact absurd h.symm hq
          · exact h
        obtain ⟨l1, l2, heq, hnot, hrem⟩ := ih.1 hmem'
        refine ⟨q :: l1, l2, by simp [heq], ?_, ?_⟩
        · simp only [List.mem_cons, not_or]
          exact ⟨fun he => hq he.symm, hnot⟩
        · simp [Players.remove, hq, hrem]
    · intro hnmem
      have hq : ¬(q = p) := fun he => hnmem (by simp [he])
      have hrest : p ∉ rest := fun hm => hnmem (by simp [hm])
      simp [Players.remove, hq, ih.2 hrest]

/-- Witness: removing bob from a registry holding him succeeds; removing
him from a registry without him raises `ValueError`. -/
theorem unregister_absent_raises_witness :
    (demoBob ∈ ([demoBob, demoAlice] : Players) ∧
      ∃ l1 l2, ([demoBob, demoAlice] : Players) = l1 ++ demoBob :: l2 ∧
        demoBob ∉ l1 ∧
        Players.remove [demoBob, demoAlice] demoBob = Except.ok (l1 ++ l2)) ∧
    (demoBob ∉ ([demoAlice] : Players) ∧
      Players.remove [demoAlice] demoBob = Except.error PyErr.valueError) :=
  ⟨⟨by decide, (unregister_absent_raises [demoBob, demoAlice] demoBob).1 (by decide)⟩,
   ⟨by decide, (unregister_absent_raises [demoAlice] demoBob).2 (by decide)⟩⟩

/-- C4: when a participant with an open gate submits an answer, the
handler echoes `{type: "repeat", text: answer}` to that participant and
then records the answer — the echo event precedes the `recorded` event
in the emitted trace — closes exactly that participant's gate (all
other registry entries are untouched, byte for byte), stores the entry
under `(name, current question index)` leaving every other ledger key's
value unchanged, grows the ledger by one entry when the key is fresh,
and leaves the quiz cursor and the process status unchanged. -/
theorem answer_accept_frame (s : Sys) (pid : Nat) (p : Player) (a : String)
    (data : InData)
    (hfind : findPlayer s.players pid = some p)
    (hgate : p.accepting_answer = true)
    (hans : data.answer = some a) :
    ∃ s' : Sys,
      handleMessage s pid data =
        Except.ok (s',
          (if p.reachable = true then [Evt.sent p.pid (Msg.repeatEcho a)]
           else [Evt.sendFailed p.pid]) ++
            [Evt.recorded p.name s.quiz.current_question a]) ∧
      s'.quiz = s.quiz ∧
      s'.status = s.status ∧
      (∃ l1 l2, s.players = l1 ++ p :: l2 ∧ (∀ q ∈ l1, q.pid ≠ pid) ∧
        s'.players = l1 ++ ({ p with accepting_answer := false }) :: l2) ∧
      dictLookup s'.results (p.name, s.quiz.current_question) =
        some { answer := a, correct := true } ∧
      (∀ k : String × Int, k ≠ (p.name, s.quiz.current_question) →
        dictLookup s'.results k = dictLookup s.results k) ∧
      ((p.name, s.quiz.current_question) ∉ Results.keys s.results →
        s'.results.length = s.results.length + 1) := by
  obtain ⟨hpid, l1, l2, heq, hl1⟩ := findPlayer_eq_some_split s.players pid p hfind
  refine ⟨{ s with
      players := updateFirst s.players pid fun q => { q with accepting_answer := false },
      results := Results.check_answer s.results p.name s.quiz.current_question a },
    ?_, rfl, rfl, ?_, ?_, ?_, ?_⟩
  · unfold handleMessage
    rw [hfind]
    simp [hgate, hans, Player.send_never_raises, sendAttempt]
  · refine ⟨l1, l2, heq, hl1, ?_⟩
    show updateFirst s.players pid _ = _
    rw [heq, updateFirst_split l1 p l2 pid _ hl1 hpid]
  · exact dictLookup_dictSet_self s.results _ _
  · intro k hk
    exact dictLookup_dictSet_ne s.results _ k _ hk
  · intro hfresh
    exact length_dictSet_fresh s.results _ _ hfresh

/-- Witness: alice (gate open on question 0 of the demo session) submits
`A`; the handler yields the echo-then-record trace. -/
theorem answer_accept_frame_witness :
    ∃ s' : Sys,
      handleMessage demoQOpen 0 { answer := some "A" } =
        Except.ok (s',
          (if demoAliceOpen.reachable = true
           then [Evt.sent demoAliceOpen.pid (Msg.repeatEcho "A")]
           else [Evt.sendFailed demoAliceOpen.pid]) ++
            [Evt.recorded demoAliceOpen.name demoQOpen.quiz.current_question "A"]) := by
  obtain ⟨s', h1, _⟩ := answer_accept_frame demoQOpen 0 demoAliceOpen "A"
    { answer := some "A" } (by decide) (by decide) (by decide)
  exact ⟨s', h1⟩

/-- C5: a message from a participant whose gate is closed is silently
ignored — the handler returns no reply events, creates no ledger entry,
and the coordinator step leaves the whole session state unchanged. -/
theorem closed_gate_answer_ignored (s : Sys) (pid : Nat) (p : Player)
    (data : InData)
    (hactive : s.status = Status.active)
    (hfind : findPlayer s.players pid = some p)
    (hgate : p.accepting_answer = false) :
    handleMessage s pid data = Except.ok (s, []) ∧
    step s (Cmd.message pid data) = (s, []) := by
  have h1 : handleMessage s pid data = Except.ok (s, []) := by
    unfold handleMessage
    rw [hfind]
    simp [hgate]
  exact ⟨h1, by simp [step, hactive, h1]⟩

/-- Witness: alice has already answered question 0 (gate closed); her
second submission `B` changes nothing and gets no reply. -/
theorem closed_gate_answer_ignored_witness :
    handleMessage demoAfterAnswer 0 { answer := some "B" } =
      Except.ok (demoAfterAnswer, []) ∧
    step demoAfterAnswer (Cmd.message 0 { answer := some "B" }) =
      (demoAfterAnswer, []) :=
  closed_gate_answer_ignored demoAfterAnswer 0 demoAlice { answer := some "B" }
    (by decide) (by decide) (by decide)

/-- C6 counterexample: a JSON message without an `answer` field arriving
while alice's gate is open is not silently ignored — evaluating
`data["answer"]` raises an uncaught `KeyError` out of the handler. -/
theorem malformed_payload_counterexample :
    handleMessage demoQOpen 0 { answer := none } = Except.error PyErr.keyError ∧
    handleMessage demoQOpen 0 { answer := none } ≠ Except.ok (demoQOpen, []) := by
  have h1 : handleMessage demoQOpen 0 { answer := none } =
      Except.error PyErr.keyError := rfl
  refine ⟨h1, ?_⟩
  rw [h1]
  exact fun h => Except.noConfusion h

/-- C6 amended: a JSON message without an `answer` field arriving while
that participant's gate is open raises an uncaught `KeyError`, which
terminates that participant's connection handler (the transport closes
the socket); no reply is sent, no ledger entry is created, and the
shared coordinator state — registry, gates, cursor, ledger — is
unchanged by the step.  (Only with the gate closed is such a payload
silently ignored, which is C5's case.) -/
theorem malformed_payload_raises (s : Sys) (pid : Nat) (p : Player)
    (data : InData)
    (hactive : s.status = Status.active)
    (hfind : findPlayer s.players pid = some p)
    (hgate : p.accepting_answer = true)
    (hans : data.answer = none) :
    handleMessage s pid data = Except.error PyErr.keyError ∧
    step s (Cmd.message pid data) = (s, [Evt.crashed pid]) := by
  have h1 : handleMessage s pid data = Except.error PyErr.keyError := by
    unfold handleMessage
    rw [hfind]
    simp [hgate, hans]
  exact ⟨h1, by simp [step, hactive, h1]⟩

/-- Witness: the malformed payload on alice's open gate crashes only her
handler task, leaving the session state intact. -/
theorem malformed_payload_raises_witness :
    handleMessage demoQOpen 0 { answer := none } = Except.error PyErr.keyError ∧
    step demoQOpen (Cmd.message 0 { answer := none }) = (demoQOpen, [Evt.crashed 0]) :=
  malformed_payload_raises demoQOpen 0 demoAliceOpen { answer := none }
    (by decide) (by decide) (by decide) rfl

/-- C7 evaluation (code bug): alice disconnects mid-question, yet the
coordinator state is completely unchanged — the registry still contains
her (the `players.remove` call in the disconnect handler is commented
out in the source), and the next advance still attempts to broadcast
question 2 to her dead-or-alive socket, contradicting the claim that a
disconnecting participant is removed from the registry and skipped by
later broadcasts. -/
theorem disconnect_keeps_registry_entry :
    (step demoQOpen (Cmd.disconnect 0)).1 = demoQOpen ∧
    demoAliceOpen ∈ (step demoQOpen (Cmd.disconnect 0)).1.players ∧
    Evt.sent 0 (Msg.questionMsg "Q2" ["C"]) ∈
      (step (step demoQOpen (Cmd.disconnect 0)).1 Cmd.advance).2 := by
  refine ⟨?_, ?_, ?_⟩ <;> decide

/-- The demo session after connect, advance and one answer is reachable. -/
theorem demoAfterAnswer_reachable : Reachable demoAfterAnswer :=
  Reachable.step _ _ (Reachable.step _ _ (Reachable.step _ _
    (Reachable.init "demo" demoQuestions)))

/-- A duplicate-free list holds at most one occurrence of any element. -/
theorem nodup_filter_eq_le_one {α : Type} [DecidableEq α] (l : List α)
    (h : l.Nodup) (a : α) :
    (l.filter fun x => decide (x = a)).length ≤ 1 := by
  induction l with
  | nil => simp
  | cons b rest ih =>
    rw [List.nodup_cons] at h
    by_cases hb : b = a
    · subst hb
      have hempty : rest.filter (fun x => decide (x = b)) = [] :=
        List.filter_eq_nil.2 fun x hx => by
          simp only [decide_eq_true_eq]
          exact fun he => h.1 (he ▸ hx)
      simp [List.filter_cons, hempty]
    · simp only [List.filter_cons, decide_eq_true_eq, hb, if_false]
      exact ih h.2

/-- C1: in every reachable session state the result ledger holds at most
one entry per `(participant name, question index)` key — its keys are
pairwise distinct, so no key occurs twice — however many answer messages
any participant sent with its gate open or closed: accepting an answer
closes the gate within the same handler iteration, before that
participant's next message can be received, and the dict-keyed ledger
never gains a second binding for an existing key. -/
theorem ledger_at_most_one_entry (s : Sys) (h : Reachable s) :
    (Results.keys s.results).Nodup ∧
    ∀ key : String × Int,
      ((Results.keys s.results).filter fun k => decide (k = key)).length ≤ 1 := by
  have hinv := reachable_sysInv s h
  exact ⟨hinv.2.2.2, fun key => nodup_filter_eq_le_one _ hinv.2.2.2 key⟩

/-- Witness: after alice's accepted answer the demo ledger's keys are
distinct, and `("alice", 0)` occurs at most once. -/
theorem ledger_at_most_one_entry_witness :
    (Results.keys demoAfterAnswer.results).Nodup ∧
    ((Results.keys demoAfterAnswer.results).filter
      fun k => decide (k = ("alice", (0 : Int)))).length ≤ 1 :=
  ⟨(ledger_at_most_one_entry demoAfterAnswer demoAfterAnswer_reachable).1,
   (ledger_at_most_one_entry demoAfterAnswer demoAfterAnswer_reachable).2
     ("alice", 0)⟩

/-- C2: in every reachable session state the cursor lies in
`[-1, len(questions)]`; any single step moves it forward by zero or one
(so over any command sequence it is monotonically non-decreasing); once
it has reached `len(questions)` the session is in the terminal state,
and the terminal state absorbs every further command — no further
advance has any effect. -/
theorem cursor_monotone_bounded (s : Sys) (h : Reachable s) :
    -1 ≤ s.quiz.current_question ∧
    s.quiz.current_question ≤ (s.quiz.questions.length : Int) ∧
    (∀ c : Cmd,
      s.quiz.current_question ≤ (step s c).1.quiz.current_question ∧
      (step s c).1.quiz.current_question ≤ s.quiz.current_question + 1) ∧
    (s.quiz.current_question = (s.quiz.questions.length : Int) →
      s.status = Status.ended) ∧
    (s.status = Status.ended → ∀ c : Cmd, step s c = (s, [])) := by
  obtain ⟨h1, h2, h3, _⟩ := reachable_sysInv s h
  refine ⟨h1, h2, fun c => ?_, fun hc => ?_, fun he c => step_ended s c he⟩
  · rcases step_cursor s c with h' | h' <;> omega
  · cases hst : s.status with
    | ended => rfl
    | active =>
      have := h3 hst
      omega

/-- Witness: the demo session's cursor bounds and the advance step's
single-step bound, at the reachable state after alice's answer. -/
theorem cursor_monotone_bounded_witness :
    -1 ≤ demoAfterAnswer.quiz.current_question ∧
    demoAfterAnswer.quiz.current_question ≤
      (demoAfterAnswer.quiz.questions.length : Int) ∧
    (step demoAfterAnswer Cmd.advance).1.quiz.current_question ≤
      demoAfterAnswer.quiz.current_question + 1 :=
  ⟨(cursor_monotone_bounded demoAfterAnswer demoAfterAnswer_reachable).1,
   (cursor_monotone_bounded demoAfterAnswer demoAfterAnswer_reachable).2.1,
   ((cursor_monotone_bounded demoAfterAnswer demoAfterAnswer_reachable).2.2.1
     Cmd.advance).2⟩
